import Mathlib

/-!
Verification of the lumol molecular-topology and interaction-configuration
subsystem: a shallow embedding of `src/core/src/sys/connect.rs` (canonical
topology terms) and `src/io/interactions.rs` (the YAML configuration →
interaction-registration pipeline), together with theorems settling the
specification claims about them.

Conventions of the embedding:
* `usize` particle indexes are modelled as `Nat` (no arithmetic is performed
  on them besides `min`/`max` comparison, so no overflow is involved);
  the lone `as usize` cast of an `i64` is modelled explicitly modulo `2^64`.
* `f64` configuration values are modelled as `ℚ`: the only operations the
  embedded code performs on them are order comparisons and storage, which
  the rationals model faithfully.
* Rust `assert!` preconditions make a constructor panic; the embedded
  constructors return `Option`, with `none` for the panic.
* Functions taking `&mut System` and returning `Result<()>` are embedded as
  `System → Except Err Unit × System`: the returned state carries the
  mutations performed before an error, exactly as a mutable borrow does.
-/

namespace Lumol

/-! The YAML document model

The configuration document tree, as exposed by the `yaml` crate used in
`interactions.rs`: strings, integers (`as_i64`), reals (`as_f64`),
sequences (`as_vec`), hashes (`as_hash`), and the `BadValue` produced by
indexing a missing key.
-/

inductive Yaml where
  | str (s : String)
  | int (n : Int)
  | real (r : ℚ)
  | seq (xs : List Yaml)
  | hash (entries : List (Yaml × Yaml))
  | badValue
  deriving Repr

def Yaml.asStr : Yaml → Option String
  | .str s => some s
  | _ => none

def Yaml.asInt : Yaml → Option Int
  | .int n => some n
  | _ => none

def Yaml.asF64 : Yaml → Option ℚ
  | .real r => some r
  | _ => none

def Yaml.asVec : Yaml → Option (List Yaml)
  | .seq xs => some xs
  | _ => none

def Yaml.asHash : Yaml → Option (List (Yaml × Yaml))
  | .hash es => some es
  | _ => none

/-- Does a hash key equal the string key used in `node["key"]` indexing? -/
def keyMatches (k : String) : Yaml → Bool
  | .str s => s = k
  | _ => false

/-- Look up the value stored under a string key in a list of hash entries. -/
def findVal (k : String) : List (Yaml × Yaml) → Yaml
  | [] => .badValue
  | e :: es => if keyMatches k e.1 then e.2 else findVal k es

/-- Indexing `node["key"]`: value of the key in a hash, `BadValue` otherwise. -/
def Yaml.get (y : Yaml) (k : String) : Yaml :=
  match y with
  | .hash es => findVal k es
  | _ => .badValue

/-- Replace the value stored under a string key in a list of hash entries. -/
def setKeyEntries (k : String) (v : Yaml) : List (Yaml × Yaml) → List (Yaml × Yaml)
  | [] => []
  | e :: es => (if keyMatches k e.1 then (e.1, v) else e) :: setKeyEntries k v es

/-- The document with the value under key `k` replaced by `v` (used to state
the case-insensitivity claim about the `type` key). -/
def Yaml.setKey (y : Yaml) (k : String) (v : Yaml) : Yaml :=
  match y with
  | .hash es => .hash (setKeyEntries k v es)
  | _ => y

theorem findVal_setKeyEntries_self (k : String) (v : Yaml) (es : List (Yaml × Yaml))
    (h : findVal k es ≠ .badValue) : findVal k (setKeyEntries k v es) = v := by
  induction es with
  | nil => simp [findVal] at h
  | cons e es ih =>
    by_cases hk : keyMatches k e.1
    · simp [findVal, setKeyEntries, hk]
    · simp only [findVal, setKeyEntries, hk, if_false, Bool.false_eq_true, if_neg, ite_false]
      simp only [findVal, hk, Bool.false_eq_true, if_false, ite_false] at h
      exact ih h

theorem findVal_setKeyEntries_ne (k k' : String) (v : Yaml) (es : List (Yaml × Yaml))
    (h : k ≠ k') : findVal k' (setKeyEntries k v es) = findVal k' es := by
  induction es with
  | nil => rfl
  | cons e es ih =>
    by_cases hk : keyMatches k e.1
    · have hk' : keyMatches k' e.1 = false := by
        cases e1 : e.1 <;> simp_all [keyMatches]
      simp [findVal, setKeyEntries, hk, hk', ih]
    · simp [findVal, setKeyEntries, hk, ih]

/-- Updating key `k` leaves every other key's lookup unchanged. -/
theorem get_setKey_ne (y : Yaml) (k k' : String) (v : Yaml) (h : k ≠ k') :
    (y.setKey k v).get k' = y.get k' := by
  cases y <;> simp [Yaml.get, Yaml.setKey, findVal_setKeyEntries_ne _ _ _ _ h]

/-- Updating key `k` makes its lookup return the new value, provided the key
was present. -/
theorem get_setKey_self (y : Yaml) (k : String) (v : Yaml)
    (h : y.get k ≠ .badValue) : (y.setKey k v).get k = v := by
  cases y <;> simp_all [Yaml.get, Yaml.setKey]
  exact findVal_setKeyEntries_self _ _ _ h

/-! Lowercasing

`str::to_lowercase` as used on the `type` tags; on the ASCII type tags the
configuration language uses, this is per-character basic-latin lowercasing.
-/

def toLowercase (s : String) : String := String.mk (s.data.map Char.toLower)

theorem char_toNat_ofNat (n : Nat) (h : n.isValidChar) : (Char.ofNat n).toNat = n := by
  rw [Char.ofNat, dif_pos h]
  rfl

theorem charLower_toNat (c : Char) (h : 65 ≤ c.toNat ∧ c.toNat ≤ 90) :
    (Char.toLower c).toNat = c.toNat + 32 := by
  have hv : (c.toNat + 32).isValidChar := Or.inl (by omega)
  simp only [Char.toLower]
  rw [if_pos ⟨h.1, h.2⟩]
  exact char_toNat_ofNat _ hv

theorem charLower_id (c : Char) (h : ¬(65 ≤ c.toNat ∧ c.toNat ≤ 90)) :
    Char.toLower c = c := by
  simp only [Char.toLower]
  rw [if_neg]
  exact fun hc => h ⟨hc.1, hc.2⟩

theorem charLower_idem (c : Char) : Char.toLower (Char.toLower c) = Char.toLower c := by
  by_cases h : 65 ≤ c.toNat ∧ c.toNat ≤ 90
  · have h2 : (Char.toLower c).toNat = c.toNat + 32 := charLower_toNat c h
    exact charLower_id _ (by omega)
  · rw [charLower_id c h, charLower_id c h]

theorem toLowercase_idem (s : String) : toLowercase (toLowercase s) = toLowercase s := by
  have h : Char.toLower ∘ Char.toLower = Char.toLower := funext fun c => charLower_idem c
  simp [toLowercase, List.map_map, h]

/-! Substring search

Used to state "the error message contains the offending string". -/

def hasSub (needle : List Char) : List Char → Bool
  | [] => needle.isEmpty
  | c :: rest => needle.isPrefixOf (c :: rest) || hasSub needle rest

theorem isPrefixOf_append (a b : List Char) : a.isPrefixOf (a ++ b) = true := by
  induction a with
  | nil => simp [List.isPrefixOf]
  | cons c cs ih => simp [List.isPrefixOf, ih]

theorem hasSub_self_append (needle post : List Char) :
    hasSub needle (needle ++ post) = true := by
  cases needle with
  | nil => cases post <;> simp [hasSub, List.isEmpty, List.isPrefixOf]
  | cons c cs => simp [hasSub, isPrefixOf_append]

theorem hasSub_append (pre needle post : List Char) :
    hasSub needle (pre ++ (needle ++ post)) = true := by
  induction pre with
  | nil => simpa using hasSub_self_append needle post
  | cons c cs ih => simp [hasSub, ih]

/-! Topology terms (`connect.rs`)

`Bond`, `Angle` and `Dihedral` with their canonicalizing constructors.  The
Rust constructors `assert!` their preconditions; the embedded constructors
return `none` exactly when an assertion would fire.
-/

/-- A `Bond` between the particles at indexes `i` and `j`, with `i < j`. -/
structure Bond where
  i : Nat
  j : Nat
  deriving DecidableEq, Repr

/-- Rust `Bond::new`: asserts `first != second`, stores `min`/`max`. -/
def Bond.new (first second : Nat) : Option Bond :=
  if first = second then none
  else some ⟨min first second, max first second⟩

/-- An `Angle` between the particles at indexes `i`, `j` and `k`, `i < k`. -/
structure Angle where
  i : Nat
  j : Nat
  k : Nat
  deriving DecidableEq, Repr

/-- Rust `Angle::new`: asserts pairwise distinctness, canonicalizes the ends. -/
def Angle.new (first second third : Nat) : Option Angle :=
  if first = second then none
  else if first = third then none
  else if second = third then none
  else some ⟨min first third, second, max first third⟩

/-- A `Dihedral` angle formed by the particles at indexes `i`, `j`, `k`, `m`. -/
structure Dihedral where
  i : Nat
  j : Nat
  k : Nat
  m : Nat
  deriving DecidableEq, Repr

/-- Rust `Dihedral::new`: asserts adjacent distinctness, then keeps the input
order when `max(first, second) < max(third, fourth)` and otherwise reverses
the quadruple. -/
def Dihedral.new (first second third fourth : Nat) : Option Dihedral :=
  if first = second then none
  else if second = third then none
  else if third = fourth then none
  else if max first second < max third fourth then
    some ⟨first, second, third, fourth⟩
  else
    some ⟨fourth, third, second, first⟩

/-! Errors and the unit-parsing collaborator -/

/-- The error type of `interactions.rs` (`Error`), restricted to the two
variants reachable from an in-memory document: configuration errors and
unit-parsing errors. -/
inductive Err where
  | config (msg : String)
  | unitParsing (msg : String)
  deriving DecidableEq, Repr

/-- Modelled from the spec: the external physical-unit parsing service
(`units::from_str`), "parse a physical quantity to a float in internal
units, fail on bad syntax".  It is an opaque collaborator, so the embedding
takes it as a parameter. -/
abbrev UnitParser := String → Except String ℚ

/-- Lift a unit-parsing result into the `Err` taxonomy, as the
`From<UnitParsingError> for Error` conversion used by `try!` does. -/
def liftUnits : Except String ℚ → Except Err ℚ
  | .ok v => .ok v
  | .error e => .error (.unitParsing e)

/-! Potentials (collaborator data model)

Modelled from the spec: the concrete potential variants of `potentials.rs`
(not under `src/`): `NullPotential`, `Harmonic{k, x0}`,
`LennardJones{sigma, epsilon}`, `CosineHarmonic{k, x0}`, `Torsion{n, k,
delta}`, the `Cutoff`/`Table` computation decorators and the `Wolf`/`Ewald`
coulombic solvers.  Only their constructors and stored fields matter here;
their evaluation behaviour is out of scope for the claims.
-/

structure NullPotential where
  deriving DecidableEq, Repr

structure Harmonic where
  k : ℚ
  x0 : ℚ
  deriving DecidableEq, Repr

structure LennardJones where
  sigma : ℚ
  epsilon : ℚ
  deriving DecidableEq, Repr

structure CosineHarmonic where
  k : ℚ
  x0 : ℚ
  deriving DecidableEq, Repr

/-- Modelled from the spec: `CosineHarmonic::new(k, x0)`. -/
def CosineHarmonic.new (k x0 : ℚ) : CosineHarmonic := ⟨k, x0⟩

structure Torsion where
  n : Nat
  k : ℚ
  delta : ℚ
  deriving DecidableEq, Repr

/-- A boxed `PairPotential` trait object: a concrete pair potential, possibly
wrapped in computation decorators. -/
inductive PairPotential where
  | nullPotential (p : NullPotential)
  | harmonic (p : Harmonic)
  | lennardJones (p : LennardJones)
  | cutoff (inner : PairPotential) (cutoffDistance : ℚ)
  | table (inner : PairPotential) (numpoints : Nat) (max : ℚ)
  deriving DecidableEq, Repr

/-- Modelled from the spec: `CutoffComputation::new(potential, cutoff)`. -/
def CutoffComputation.new (potential : PairPotential) (cutoff : ℚ) : PairPotential :=
  .cutoff potential cutoff

/-- Modelled from the spec: `TableComputation::new(potential, n, max)`. -/
def TableComputation.new (potential : PairPotential) (n : Nat) (max : ℚ) : PairPotential :=
  .table potential n max

/-- A boxed `AnglePotential` trait object. -/
inductive AnglePotential where
  | nullPotential (p : NullPotential)
  | harmonic (p : Harmonic)
  | cosineHarmonic (p : CosineHarmonic)
  deriving DecidableEq, Repr

/-- A boxed `DihedralPotential` trait object. -/
inductive DihedralPotential where
  | nullPotential (p : NullPotential)
  | harmonic (p : Harmonic)
  | cosineHarmonic (p : CosineHarmonic)
  | torsion (p : Torsion)
  deriving DecidableEq, Repr

/-- The `PairRestriction` variants (modelled from the spec; the enum lives in
`potentials.rs`, outside `src/`). -/
inductive PairRestriction where
  | none
  | intraMolecular
  | interMolecular
  | exclude12
  | exclude13
  | exclude14
  | scale14 (scaling : ℚ)
  deriving DecidableEq, Repr

structure Wolf where
  cutoff : ℚ
  deriving DecidableEq, Repr

structure Ewald where
  cutoff : ℚ
  kmax : Nat
  deriving DecidableEq, Repr

inductive CoulombSolver where
  | wolf (w : Wolf)
  | ewald (e : Ewald)
  deriving DecidableEq, Repr

/-- A boxed `CoulombicPotential` trait object: a solver that owns an optional
`PairRestriction` (modelled from the spec). -/
structure CoulombPotential where
  solver : CoulombSolver
  restriction : Option PairRestriction
  deriving DecidableEq, Repr

/-- Modelled from the spec: `set_restriction` on a coulombic potential. -/
def CoulombPotential.set_restriction (p : CoulombPotential) (r : PairRestriction) :
    CoulombPotential :=
  { p with restriction := some r }

/-! The particle-system container (collaborator API)

Modelled from the spec, section 6: the container records registered
interactions keyed by particle-type names, owns the single coulombic
potential, and exposes particles with a read-only name and a mutable
charge. -/

structure Particle where
  name : String
  charge : ℚ
  deriving DecidableEq, Repr

structure System where
  pairInteractions : List (String × String × PairPotential × Option PairRestriction)
  bondInteractions : List (String × String × PairPotential)
  angleInteractions : List (String × String × String × AnglePotential)
  dihedralInteractions : List (String × String × String × String × DihedralPotential)
  coulomb : Option CoulombPotential
  particles : List Particle
  deriving DecidableEq, Repr

def System.add_pair_interaction (s : System) (a b : String) (p : PairPotential) : System :=
  { s with pairInteractions := s.pairInteractions ++ [(a, b, p, Option.none)] }

def System.add_pair_interaction_with_restriction (s : System) (a b : String)
    (p : PairPotential) (r : PairRestriction) : System :=
  { s with pairInteractions := s.pairInteractions ++ [(a, b, p, some r)] }

def System.add_bond_interaction (s : System) (a b : String) (p : PairPotential) : System :=
  { s with bondInteractions := s.bondInteractions ++ [(a, b, p)] }

def System.add_angle_interaction (s : System) (a b c : String) (p : AnglePotential) : System :=
  { s with angleInteractions := s.angleInteractions ++ [(a, b, c, p)] }

def System.add_dihedral_interaction (s : System) (a b c d : String)
    (p : DihedralPotential) : System :=
  { s with dihedralInteractions := s.dihedralInteractions ++ [(a, b, c, d, p)] }

def System.set_coulomb_interaction (s : System) (p : CoulombPotential) : System :=
  { s with coulomb := some p }

/-! `FromYaml` constructors (`interactions.rs`) -/

def NullPotential.from_yaml (_ : Yaml) : Except Err NullPotential :=
  .ok ⟨⟩

def Harmonic.from_yaml (up : UnitParser) (node : Yaml) : Except Err Harmonic :=
  match (node.get "k").asStr, (node.get "x0").asStr with
  | some k, some x0 =>
    match up k with
    | .error e => .error (.unitParsing e)
    | .ok kv =>
      match up x0 with
      | .error e => .error (.unitParsing e)
      | .ok xv => .ok ⟨kv, xv⟩
  | _, _ => .error (.config "Missing 'k' or 'x0' in harmonic potential")

def LennardJones.from_yaml (up : UnitParser) (node : Yaml) : Except Err LennardJones :=
  match (node.get "sigma").asStr, (node.get "epsilon").asStr with
  | some sigma, some epsilon =>
    match up sigma with
    | .error e => .error (.unitParsing e)
    | .ok sv =>
      match up epsilon with
      | .error e => .error (.unitParsing e)
      | .ok ev => .ok ⟨sv, ev⟩
  | _, _ => .error (.config "Missing 'sigma' or 'espilon' in Lennard-Jones potential")

def CosineHarmonic.from_yaml (up : UnitParser) (node : Yaml) : Except Err CosineHarmonic :=
  match (node.get "k").asStr, (node.get "x0").asStr with
  | some k, some x0 =>
    match up k with
    | .error e => .error (.unitParsing e)
    | .ok kv =>
      match up x0 with
      | .error e => .error (.unitParsing e)
      | .ok xv => .ok (CosineHarmonic.new kv xv)
  | _, _ => .error (.config "Missing 'k' or 'x0' in cosine harmonic potential")

/-- The cast `n as usize` on a 64-bit platform: reduce the signed 64-bit value modulo
`2^64`. -/
def usizeOfInt (n : Int) : Nat := (n.emod 18446744073709551616).toNat

def Torsion.from_yaml (up : UnitParser) (node : Yaml) : Except Err Torsion :=
  match (node.get "n").asInt, (node.get "k").asStr, (node.get "delta").asStr with
  | some n, some k, some delta =>
    match up k with
    | .error e => .error (.unitParsing e)
    | .ok kv =>
      match up delta with
      | .error e => .error (.unitParsing e)
      | .ok dv => .ok ⟨usizeOfInt n, kv, dv⟩
  | _, _, _ => .error (.config "Missing 'n', 'k' or 'delta' in torsion potential")

def Wolf.from_yaml (up : UnitParser) (node : Yaml) : Except Err Wolf :=
  match (node.get "cutoff").asStr with
  | some cutoff =>
    match up cutoff with
    | .error e => .error (.unitParsing e)
    | .ok cv => .ok ⟨cv⟩
  | _ => .error (.config "Missing 'cutoff' parameter in Wolf potential")

def Ewald.from_yaml (up : UnitParser) (node : Yaml) : Except Err Ewald :=
  match (node.get "cutoff").asStr, (node.get "kmax").asInt with
  | some cutoff, some kmax =>
    match up cutoff with
    | .error e => .error (.unitParsing e)
    | .ok cv =>
      if kmax < 0 then .error (.config "'kmax' can not be negative in Ewald potential")
      else .ok ⟨cv, usizeOfInt kmax⟩
  | _, _ => .error (.config "Missing 'cutoff' or 'kmax' parameter in Ewald potential")

/-! Potential dispatch by `type` tag -/

def read_pair_potential (up : UnitParser) (node : Yaml) : Except Err PairPotential :=
  match (node.get "type").asStr with
  | Option.none => .error (.config "Missing 'type' parameter in pair potential")
  | some t =>
    let typ := toLowercase t
    if typ = "harmonic" then (Harmonic.from_yaml up node).map .harmonic
    else if typ = "lennard-jones" ∨ typ = "lennardjones" then
      (LennardJones.from_yaml up node).map .lennardJones
    else if typ = "null" ∨ typ = "nullpotential" then
      (NullPotential.from_yaml node).map .nullPotential
    else .error (.config ("Unknown potential type '" ++ typ ++ "'"))

def read_angle_potential (up : UnitParser) (node : Yaml) : Except Err AnglePotential :=
  match (node.get "type").asStr with
  | Option.none => .error (.config "Missing 'type' parameter in angle potential")
  | some t =>
    let typ := toLowercase t
    if typ = "harmonic" then (Harmonic.from_yaml up node).map .harmonic
    else if typ = "cosine-harmonic" ∨ typ = "cosineharmonic" then
      (CosineHarmonic.from_yaml up node).map .cosineHarmonic
    else if typ = "null" then (NullPotential.from_yaml node).map .nullPotential
    else .error (.config ("Unknown potential type '" ++ typ ++ "'"))

def read_dihedral_potential (up : UnitParser) (node : Yaml) : Except Err DihedralPotential :=
  match (node.get "type").asStr with
  | Option.none => .error (.config "Missing 'type' parameter in dihedral potential")
  | some t =>
    let typ := toLowercase t
    if typ = "harmonic" then (Harmonic.from_yaml up node).map .harmonic
    else if typ = "cosine-harmonic" ∨ typ = "cosineharmonic" then
      (CosineHarmonic.from_yaml up node).map .cosineHarmonic
    else if typ = "torsion" then (Torsion.from_yaml up node).map .torsion
    else if typ = "null" then (NullPotential.from_yaml node).map .nullPotential
    else .error (.config ("Unknown potential type '" ++ typ ++ "'"))

/-! Restrictions -/

def read_restriction (node : Yaml) : Except Err PairRestriction :=
  match (node.get "type").asStr with
  | Option.none => .error (.config "Missing 'type' parameter in restriction section")
  | some t =>
    let typ := toLowercase t
    if typ = "none" then .ok PairRestriction.none
    else if typ = "intramolecular" then .ok .intraMolecular
    else if typ = "intermolecular" then .ok .interMolecular
    else if typ = "exclude12" then .ok .exclude12
    else if typ = "exclude13" then .ok .exclude13
    else if typ = "exclude14" then .ok .exclude14
    else if typ = "scale14" then
      match (node.get "scaling").asF64 with
      | some scaling =>
        if 0 ≤ scaling ∧ scaling ≤ 1 then .ok (.scale14 scaling)
        else .error
          (.config "Scaling parameter for Scale14 restriction must be between 0 and 1")
      | Option.none => .error (.config "Missing 'scaling' parameter in Scale14 restriction")
    else .error (.config ("Unknown potential type '" ++ typ ++ "'"))

/-! Computations -/

def CutoffComputation.from_yaml (up : UnitParser) (node : Yaml)
    (potential : PairPotential) : Except Err PairPotential :=
  match (node.get "cutoff").asStr with
  | some cutoff =>
    match up cutoff with
    | .error e => .error (.unitParsing e)
    | .ok cv => .ok (CutoffComputation.new potential cv)
  | _ => .error (.config "Missing 'cutoff' parameter in cutoff computation")

def TableComputation.from_yaml (up : UnitParser) (node : Yaml)
    (potential : PairPotential) : Except Err PairPotential :=
  match (node.get "n").asInt, (node.get "max").asStr with
  | some n, some max =>
    match up max with
    | .error e => .error (.unitParsing e)
    | .ok mv => .ok (TableComputation.new potential (usizeOfInt n) mv)
  | _, _ => .error (.config "Missing 'max' or 'n' parameter in cutoff computation")

def read_pair_computation (up : UnitParser) (node : Yaml) (potential : PairPotential) :
    Except Err PairPotential :=
  match (node.get "type").asStr with
  | Option.none => .error (.config "Missing 'type' parameter for potential computation")
  | some t =>
    let typ := toLowercase t
    if typ = "cutoff" then CutoffComputation.from_yaml up node potential
    else if typ = "table" then TableComputation.from_yaml up node potential
    else .error (.config ("Unknown computation type '" ++ typ ++ "'"))

/-! Section readers

Each reader mirrors a `fn read_*(system: &mut System, ...) -> Result<()>`:
it returns the outcome together with the system state, which carries the
mutations performed before any error (as a `&mut` borrow does).
-/

def read_pairs (up : UnitParser) (pair_potentials : Bool) :
    System → List Yaml → Except Err Unit × System
  | sys, [] => (.ok (), sys)
  | sys, node :: rest =>
    match (node.get "atoms").asVec with
    | Option.none => (.error (.config "Missing 'atoms' section in pair potential"), sys)
    | some atoms =>
      if atoms.length ≠ 2 then
        (.error (.config ("Wrong size for 'atoms' section in pair potentials. Should be 2, is "
          ++ toString atoms.length)), sys)
      else
        match (atoms.getD 0 .badValue).asStr with
        | Option.none =>
          (.error (.config "The first atom name is not a string in pair potential"), sys)
        | some a =>
          match (atoms.getD 1 .badValue).asStr with
          | Option.none =>
            (.error (.config "The second atom name is not a string in pair potential"), sys)
          | some b =>
            match
              (if (node.get "restriction").asHash.isSome then
                (read_restriction (node.get "restriction")).map some
              else .ok Option.none) with
            | .error e => (.error e, sys)
            | .ok restriction =>
              match read_pair_potential up node with
              | .error e => (.error e, sys)
              | .ok potential =>
                match
                  (if (node.get "computation").asHash.isSome then
                    read_pair_computation up (node.get "computation") potential
                  else .ok potential) with
                | .error e => (.error e, sys)
                | .ok potential =>
                  let sys :=
                    if pair_potentials then
                      match restriction with
                      | some r => sys.add_pair_interaction_with_restriction a b potential r
                      | Option.none => sys.add_pair_interaction a b potential
                    else sys.add_bond_interaction a b potential
                  read_pairs up pair_potentials sys rest

def read_angles (up : UnitParser) : System → List Yaml → Except Err Unit × System
  | sys, [] => (.ok (), sys)
  | sys, node :: rest =>
    match (node.get "atoms").asVec with
    | Option.none => (.error (.config "Missing 'atoms' section in angle potential"), sys)
    | some atoms =>
      if atoms.length ≠ 3 then
        (.error (.config ("Wrong size for 'atoms' section in angle potentials. Should be 3, is "
          ++ toString atoms.length)), sys)
      else
        match (atoms.getD 0 .badValue).asStr with
        | Option.none =>
          (.error (.config "The first atom name is not a string in angle potential"), sys)
        | some a =>
          match (atoms.getD 1 .badValue).asStr with
          | Option.none =>
            (.error (.config "The second atom name is not a string in angle potential"), sys)
          | some b =>
            match (atoms.getD 2 .badValue).asStr with
            | Option.none =>
              (.error (.config "The third atom name is not a string in angle potential"), sys)
            | some c =>
              match read_angle_potential up node with
              | .error e => (.error e, sys)
              | .ok potential =>
                read_angles up (sys.add_angle_interaction a b c potential) rest

def read_dihedrals (up : UnitParser) : System → List Yaml → Except Err Unit × System
  | sys, [] => (.ok (), sys)
  | sys, node :: rest =>
    match (node.get "atoms").asVec with
    | Option.none => (.error (.config "Missing 'atoms' section in dihedral potential"), sys)
    | some atoms =>
      if atoms.length ≠ 4 then
        (.error (.config ("Wrong size for 'atoms' section in dihedral potentials. Should be 4, is "
          ++ toString atoms.length)), sys)
      else
        match (atoms.getD 0 .badValue).asStr with
        | Option.none =>
          (.error (.config "The first atom name is not a string in dihedral potential"), sys)
        | some a =>
          match (atoms.getD 1 .badValue).asStr with
          | Option.none =>
            (.error (.config "The second atom name is not a string in dihedral potential"), sys)
          | some b =>
            match (atoms.getD 2 .badValue).asStr with
            | Option.none =>
              (.error (.config "The third atom name is not a string in dihedral potential"), sys)
            | some c =>
              match (atoms.getD 3 .badValue).asStr with
              | Option.none =>
                (.error
                  (.config "The fourth atom name is not a string in dihedral potential"), sys)
              | some d =>
                match read_dihedral_potential up node with
                | .error e => (.error e, sys)
                | .ok potential =>
                  read_dihedrals up (sys.add_dihedral_interaction a b c d potential) rest

/-! Coulomb -/

def read_coulomb_potential (up : UnitParser) (node : Yaml) : Except Err CoulombPotential :=
  match (node.get "type").asStr with
  | Option.none => .error (.config "Missing 'type' parameter for coulomb section")
  | some t =>
    let typ := toLowercase t
    if typ = "wolf" then (Wolf.from_yaml up node).map fun w => ⟨.wolf w, Option.none⟩
    else if typ = "ewald" then (Ewald.from_yaml up node).map fun e => ⟨.ewald e, Option.none⟩
    else .error (.config ("Unknown coulomb solver type '" ++ typ ++ "'"))

/-- One pass of the charge-assignment loop body: set the charge of every
particle whose type name matches. -/
def applyCharge (sys : System) (name : String) (charge : ℚ) : System :=
  { sys with particles :=
      sys.particles.map fun p => if p.name = name then { p with charge := charge } else p }

def assign_charges : System → List (Yaml × Yaml) → Except Err Unit × System
  | sys, [] => (.ok (), sys)
  | sys, (nameY, chargeY) :: rest =>
    match nameY.asStr, chargeY.asF64 with
    | some name, some charge =>
      let n_changed := (sys.particles.filter fun p => p.name = name).length
      let sys := applyCharge sys name charge
      if n_changed = 0 then
        (.error (.config ("No particle with the name " ++ name ++ " was found")), sys)
      else
        assign_charges sys rest
    | _, _ =>
      (.error (.config ("Bad Yaml format in charges section: " ++ reprStr nameY ++ ", "
        ++ reprStr chargeY)), sys)

def read_coulomb (up : UnitParser) (sys : System) (config : Yaml) :
    Except Err Unit × System :=
  match read_coulomb_potential up config with
  | .error e => (.error e, sys)
  | .ok potential =>
    match
      (if (config.get "restriction").asHash.isSome then
        (read_restriction (config.get "restriction")).map fun r =>
          potential.set_restriction r
      else .ok potential) with
    | .error e => (.error e, sys)
    | .ok potential =>
      let sys := sys.set_coulomb_interaction potential
      match (config.get "charges").asHash with
      | some charges => assign_charges sys charges
      | Option.none => (.ok (), sys)

/-! The five section passes of `read_interactions_string`

The source runs the five passes sequentially, each gated on its section
being present; `afterPairs`, `afterBonds`, ... are the suffixes of that
pipeline, so that skipping behaviour can be stated pass by pass. -/

def andThenSys (r : Except Err Unit × System) (f : System → Except Err Unit × System) :
    Except Err Unit × System :=
  match r with
  | (.ok _, sys) => f sys
  | (.error e, sys) => (.error e, sys)

def pairsStep (up : UnitParser) (doc : Yaml) (sys : System) : Except Err Unit × System :=
  match (doc.get "pairs").asVec with
  | some config => read_pairs up true sys config
  | Option.none => (.ok (), sys)

def bondsStep (up : UnitParser) (doc : Yaml) (sys : System) : Except Err Unit × System :=
  match (doc.get "bonds").asVec with
  | some config => read_pairs up false sys config
  | Option.none => (.ok (), sys)

def anglesStep (up : UnitParser) (doc : Yaml) (sys : System) : Except Err Unit × System :=
  match (doc.get "angles").asVec with
  | some config => read_angles up sys config
  | Option.none => (.ok (), sys)

def dihedralsStep (up : UnitParser) (doc : Yaml) (sys : System) : Except Err Unit × System :=
  match (doc.get "dihedrals").asVec with
  | some config => read_dihedrals up sys config
  | Option.none => (.ok (), sys)

def coulombStep (up : UnitParser) (doc : Yaml) (sys : System) : Except Err Unit × System :=
  if (doc.get "coulomb").asHash.isSome then read_coulomb up sys (doc.get "coulomb")
  else (.ok (), sys)

def afterDihedrals (up : UnitParser) (doc : Yaml) (sys : System) : Except Err Unit × System :=
  coulombStep up doc sys

def afterAngles (up : UnitParser) (doc : Yaml) (sys : System) : Except Err Unit × System :=
  andThenSys (dihedralsStep up doc sys) (afterDihedrals up doc)

def afterBonds (up : UnitParser) (doc : Yaml) (sys : System) : Except Err Unit × System :=
  andThenSys (anglesStep up doc sys) (afterAngles up doc)

def afterPairs (up : UnitParser) (doc : Yaml) (sys : System) : Except Err Unit × System :=
  andThenSys (bondsStep up doc sys) (afterBonds up doc)

/-- The entry point `read_interactions_string`, applied to the already-loaded document tree
(the YAML text → tree step is the external `YamlLoader`). -/
def read_interactions_string (up : UnitParser) (sys : System) (doc : Yaml) :
    Except Err Unit × System :=
  andThenSys (pairsStep up doc sys) (afterPairs up doc)

/-! Theorems -/

/-- Claim C4: for every pair of particle indices `(a, b)` with `a ≠ b`,
`Bond::new(a, b)` equals `Bond::new(b, a)`, the canonical value stores
`i = min(a, b)` and `j = max(a, b)`, and under the precondition `a ≠ b` the
construction never fails (it returns `some`). -/
theorem bond_new_canonical (a b : Nat) (h : a ≠ b) :
    Bond.new a b = Bond.new b a ∧ Bond.new a b = some ⟨min a b, max a b⟩ := by
  constructor
  · simp [Bond.new, h, Ne.symm h, Nat.min_comm, Nat.max_comm]
  · simp [Bond.new, h]

theorem bond_new_canonical_witness :
    (1 : Nat) ≠ 2 ∧
      (Bond.new 1 2 = Bond.new 2 1 ∧ Bond.new 1 2 = some ⟨min 1 2, max 1 2⟩) :=
  ⟨by decide, bond_new_canonical 1 2 (by decide)⟩

/-- Claim C5: for every triple of pairwise-distinct particle indices `(a, b, c)`,
`Angle::new(a, b, c)` equals `Angle::new(c, b, a)`, the stored middle index
equals the second constructor argument `b`, and the end indices are
canonicalized as `i = min(a, c)`, `k = max(a, c)`. -/
theorem angle_new_canonical (a b c : Nat) (h1 : a ≠ b) (h2 : a ≠ c) (h3 : b ≠ c) :
    Angle.new a b c = Angle.new c b a ∧
      Angle.new a b c = some ⟨min a c, b, max a c⟩ := by
  constructor
  · simp [Angle.new, h1, h2, h3, Ne.symm h1, Ne.symm h2, Ne.symm h3,
      Nat.min_comm, Nat.max_comm]
  · simp [Angle.new, h1, h2, h3]

theorem angle_new_canonical_witness :
    ((8 : Nat) ≠ 7 ∧ (8 : Nat) ≠ 6 ∧ (7 : Nat) ≠ 6) ∧
      (Angle.new 8 7 6 = Angle.new 6 7 8 ∧
        Angle.new 8 7 6 = some ⟨min 8 6, 7, max 8 6⟩) :=
  ⟨⟨by decide, by decide, by decide⟩, angle_new_canonical 8 7 6 (by decide) (by decide) (by decide)⟩

/-- Claim C1 counterexample: the quadruple `(2, 0, 1, 2)` satisfies the
adjacent-distinctness precondition, yet `Dihedral::new(2, 0, 1, 2)` differs
from `Dihedral::new(2, 1, 0, 2)`, its chain reversal: both sides tie on
`max(first, second) = max(third, fourth) = 2`, so both are reversed, and the
two canonical values are the two distinct orientations. -/
theorem dihedral_reversal_counterexample :
    ((2 : Nat) ≠ 0 ∧ (0 : Nat) ≠ 1 ∧ (1 : Nat) ≠ 2) ∧
      Dihedral.new 2 0 1 2 ≠ Dihedral.new 2 1 0 2 := by
  decide

/-- Claim C1 (amended): the canonical orientation is chosen by comparing
`max(a, b)` against `max(c, d)`, keeping input order when the former is
smaller and reversing to `(d, c, b, a)` otherwise; consequently
`Dihedral::new(a, b, c, d)` equals `Dihedral::new(d, c, b, a)` whenever
`max(a, b) ≠ max(c, d)` (on a tie both orientations reverse and the two
constructions disagree, as the counterexample shows). -/
theorem dihedral_new_canonical (a b c d : Nat) (h1 : a ≠ b) (h2 : b ≠ c) (h3 : c ≠ d) :
    Dihedral.new a b c d =
      some (if max a b < max c d then ⟨a, b, c, d⟩ else ⟨d, c, b, a⟩) ∧
      (max a b ≠ max c d → Dihedral.new a b c d = Dihedral.new d c b a) := by
  constructor
  · simp only [Dihedral.new, h1, h2, h3, if_neg, ite_false]
    rw [apply_ite some]
  · intro hmax
    simp only [Dihedral.new, h1, h2, h3, Ne.symm h1, Ne.symm h2, Ne.symm h3,
      if_neg, ite_false]
    rw [Nat.max_comm d c, Nat.max_comm b a]
    rcases Nat.lt_trichotomy (max a b) (max c d) with hlt | heq | hgt
    · rw [if_pos hlt, if_neg (Nat.not_lt.mpr (Nat.le_of_lt hlt))]
    · exact absurd heq hmax
    · rw [if_neg (Nat.not_lt.mpr (Nat.le_of_lt hgt)), if_pos hgt]

theorem dihedral_new_canonical_witness :
    ((8 : Nat) ≠ 7 ∧ (7 : Nat) ≠ 6 ∧ (6 : Nat) ≠ 0) ∧
      (Dihedral.new 8 7 6 0 =
        some (if max 8 7 < max 6 0 then ⟨8, 7, 6, 0⟩ else ⟨0, 6, 7, 8⟩) ∧
        (max 8 7 ≠ max 6 0 → Dihedral.new 8 7 6 0 = Dihedral.new 0 6 7 8)) :=
  ⟨⟨by decide, by decide, by decide⟩,
    dihedral_new_canonical 8 7 6 0 (by decide) (by decide) (by decide)⟩

/-- Claim C8: the entry point `read_interactions_string` processes the five top-level sections
`pairs`, `bonds`, `angles`, `dihedrals`, `coulomb` as five sequential
passes; a missing section's pass is the identity on the system (it is
skipped and produces no error), and a document in which all five sections
are missing succeeds leaving the system unchanged. -/
theorem read_interactions_sections_optional (up : UnitParser) (doc : Yaml) (sys : System) :
    ((doc.get "pairs").asVec = Option.none →
      read_interactions_string up sys doc = afterPairs up doc sys)
    ∧ ((doc.get "bonds").asVec = Option.none →
      ∀ s, afterPairs up doc s = afterBonds up doc s)
    ∧ ((doc.get "angles").asVec = Option.none →
      ∀ s, afterBonds up doc s = afterAngles up doc s)
    ∧ ((doc.get "dihedrals").asVec = Option.none →
      ∀ s, afterAngles up doc s = afterDihedrals up doc s)
    ∧ ((doc.get "coulomb").asHash = Option.none →
      ∀ s, afterDihedrals up doc s = (.ok (), s))
    ∧ ((doc.get "pairs").asVec = Option.none → (doc.get "bonds").asVec = Option.none →
      (doc.get "angles").asVec = Option.none → (doc.get "dihedrals").asVec = Option.none →
      (doc.get "coulomb").asHash = Option.none →
      read_interactions_string up sys doc = (.ok (), sys)) := by
  refine ⟨?_, ?_, ?_, ?_, ?_, ?_⟩
  · intro h
    simp [read_interactions_string, pairsStep, h, andThenSys]
  · intro h s
    simp [afterPairs, bondsStep, h, andThenSys]
  · intro h s
    simp [afterBonds, anglesStep, h, andThenSys]
  · intro h s
    simp [afterAngles, dihedralsStep, h, andThenSys]
  · intro h s
    simp [afterDihedrals, coulombStep, h, andThenSys]
  · intro h1 h2 h3 h4 h5
    simp [read_interactions_string, afterPairs, afterBonds, afterAngles, afterDihedrals,
      pairsStep, bondsStep, anglesStep, dihedralsStep, coulombStep,
      h1, h2, h3, h4, h5, andThenSys]

theorem read_interactions_sections_optional_witness :
    read_interactions_string (fun _ => .error "") ⟨[], [], [], [], Option.none, []⟩
      (Yaml.hash []) = (.ok (), ⟨[], [], [], [], Option.none, []⟩) :=
  (read_interactions_sections_optional (fun _ => .error "") (Yaml.hash [])
    ⟨[], [], [], [], Option.none, []⟩).2.2.2.2.2 rfl rfl rfl rfl rfl

/-- Claim C2: parsing a restriction record of type `Scale14` (case-insensitive)
returns `PairRestriction::Scale14{scaling}` exactly when the numeric
`scaling` field is present and lies in the closed interval `[0, 1]`; every
scaling outside that interval yields a configuration error (never a clamped
value), and a missing `scaling` field is also a configuration error. -/
theorem read_restriction_scale14 (node : Yaml) (t : String)
    (ht : (node.get "type").asStr = some t) (hl : toLowercase t = "scale14") :
    (∀ s : ℚ, (node.get "scaling").asF64 = some s →
      ((0 ≤ s ∧ s ≤ 1) → read_restriction node = .ok (.scale14 s)) ∧
      (¬(0 ≤ s ∧ s ≤ 1) → read_restriction node =
        .error (.config "Scaling parameter for Scale14 restriction must be between 0 and 1")))
    ∧ ((node.get "scaling").asF64 = Option.none → read_restriction node =
        .error (.config "Missing 'scaling' parameter in Scale14 restriction")) := by
  have hmain : read_restriction node =
      match (node.get "scaling").asF64 with
      | some scaling =>
        if 0 ≤ scaling ∧ scaling ≤ 1 then .ok (.scale14 scaling)
        else .error
          (.config "Scaling parameter for Scale14 restriction must be between 0 and 1")
      | Option.none => .error (.config "Missing 'scaling' parameter in Scale14 restriction") := by
    simp +decide [read_restriction, ht, hl]
  constructor
  · intro s hs
    rw [hmain, hs]
    constructor
    · intro hr
      simp [hr]
    · intro hr
      simp [hr]
  · intro hs
    rw [hmain, hs]

theorem read_restriction_scale14_witness :
    ((0 : ℚ) ≤ 4/5 ∧ (4/5 : ℚ) ≤ 1) ∧
      read_restriction
        (Yaml.hash [(.str "type", .str "Scale14"), (.str "scaling", .real (4/5))]) =
        .ok (.scale14 (4/5)) :=
  ⟨⟨by norm_num, by norm_num⟩,
    ((read_restriction_scale14
      (Yaml.hash [(.str "type", .str "Scale14"), (.str "scaling", .real (4/5))])
      "Scale14" rfl rfl).1 (4/5) rfl).1 ⟨by norm_num, by norm_num⟩⟩

/-- Claim C7: a pairs or bonds entry whose `atoms` list has a length other than 2,
an angles entry whose `atoms` list has a length other than 3, and a
dihedrals entry whose `atoms` list has a length other than 4, each make
parsing of their section fail with a configuration error whose message
states the expected and the actual size. -/
theorem read_atoms_wrong_size (up : UnitParser) (sys : System) (node : Yaml)
    (rest : List Yaml) (atoms : List Yaml)
    (hat : (node.get "atoms").asVec = some atoms) :
    (∀ pp : Bool, atoms.length ≠ 2 →
      read_pairs up pp sys (node :: rest) =
        (.error (.config ("Wrong size for 'atoms' section in pair potentials. Should be 2, is "
          ++ toString atoms.length)), sys))
    ∧ (atoms.length ≠ 3 →
      read_angles up sys (node :: rest) =
        (.error (.config ("Wrong size for 'atoms' section in angle potentials. Should be 3, is "
          ++ toString atoms.length)), sys))
    ∧ (atoms.length ≠ 4 →
      read_dihedrals up sys (node :: rest) =
        (.error
          (.config ("Wrong size for 'atoms' section in dihedral potentials. Should be 4, is "
            ++ toString atoms.length)), sys)) := by
  refine ⟨?_, ?_, ?_⟩
  · intro pp h
    simp [read_pairs, hat, h]
  · intro h
    simp [read_angles, hat, h]
  · intro h
    simp [read_dihedrals, hat, h]

theorem read_atoms_wrong_size_witness :
    (List.length [Yaml.str "He", .str "Ar", .str "O"] ≠ 2) ∧
      read_pairs (fun _ => .error "") true ⟨[], [], [], [], Option.none, []⟩
          [Yaml.hash [(.str "atoms", .seq [.str "He", .str "Ar", .str "O"])]] =
        (.error (.config ("Wrong size for 'atoms' section in pair potentials. Should be 2, is "
          ++ toString (List.length [Yaml.str "He", .str "Ar", .str "O"]))),
          ⟨[], [], [], [], Option.none, []⟩) :=
  ⟨by decide,
    (read_atoms_wrong_size (fun _ => .error "") ⟨[], [], [], [], Option.none, []⟩
      (Yaml.hash [(.str "atoms", .seq [.str "He", .str "Ar", .str "O"])]) []
      [Yaml.str "He", .str "Ar", .str "O"] rfl).1 true (by decide)⟩

/-- Claim C10: the reader `Torsion::from_yaml` reads `n` with `as_i64` and casts it with
`n as usize`, so parsing succeeds for every integer `n` regardless of sign
(whenever `k` and `delta` are present and parse), the stored multiplicity
wrapping modulo `2^64` — a negative `n` becomes `n + 2^64`; by contrast,
`Ewald::from_yaml` rejects a negative `kmax` with a configuration error. -/
theorem torsion_wraps_ewald_rejects (up : UnitParser) :
    (∀ (node : Yaml) (n : Int) (ks ds : String) (kv dv : ℚ),
      (node.get "n").asInt = some n → (node.get "k").asStr = some ks →
      (node.get "delta").asStr = some ds → up ks = .ok kv → up ds = .ok dv →
      Torsion.from_yaml up node = .ok ⟨usizeOfInt n, kv, dv⟩)
    ∧ (∀ n : Int, -9223372036854775808 ≤ n → n < 0 →
        (usizeOfInt n : Int) = n + 18446744073709551616)
    ∧ (∀ (node : Yaml) (cs : String) (m : Int) (cv : ℚ),
      (node.get "cutoff").asStr = some cs → (node.get "kmax").asInt = some m →
      up cs = .ok cv → m < 0 →
      Ewald.from_yaml up node =
        .error (.config "'kmax' can not be negative in Ewald potential")) := by
  refine ⟨?_, ?_, ?_⟩
  · intro node n ks ds kv dv hn hk hd hku hdu
    simp [Torsion.from_yaml, hn, hk, hd, hku, hdu]
  · intro n hlo hneg
    have h1 : (0 : Int) ≤ n + 18446744073709551616 := by omega
    have h2 : n + 18446744073709551616 < 18446744073709551616 := by omega
    have h4 : (n + 18446744073709551616) % 18446744073709551616
        = n % 18446744073709551616 := Int.add_emod_self
    rw [Int.emod_eq_of_lt h1 h2] at h4
    unfold usizeOfInt
    show ((n % 18446744073709551616).toNat : Int) = n + 18446744073709551616
    rw [← h4, Int.toNat_of_nonneg h1]
  · intro node cs m cv hc hm hcu hneg
    simp [Ewald.from_yaml, hc, hm, hcu, hneg]

theorem torsion_wraps_ewald_rejects_witness :
    ((-3 : Int) < 0 ∧
      Torsion.from_yaml (fun _ => .ok 1)
        (Yaml.hash [(.str "n", .int (-3)), (.str "k", .str "40 kJ/mol"),
          (.str "delta", .str "120 deg")]) =
        .ok ⟨usizeOfInt (-3), 1, 1⟩ ∧
      usizeOfInt (-3) = 18446744073709551613)
    ∧ Ewald.from_yaml (fun _ => .ok 1)
        (Yaml.hash [(.str "cutoff", .str "10 A"), (.str "kmax", .int (-1))]) =
        .error (.config "'kmax' can not be negative in Ewald potential") :=
  ⟨⟨by decide,
    (torsion_wraps_ewald_rejects (fun _ => .ok 1)).1
      (Yaml.hash [(.str "n", .int (-3)), (.str "k", .str "40 kJ/mol"),
        (.str "delta", .str "120 deg")]) (-3) "40 kJ/mol" "120 deg" 1 1
      rfl rfl rfl rfl rfl,
    by decide⟩,
    (torsion_wraps_ewald_rejects (fun _ => .ok 1)).2.2
      (Yaml.hash [(.str "cutoff", .str "10 A"), (.str "kmax", .int (-1))])
      "10 A" (-1) 1 rfl rfl rfl (by decide)⟩

/-- Claim C3: for an entry `(name, charge)` of the coulomb `charges` mapping: if no
particle in the system has that type name, processing returns a
configuration error; if some particles match, the charge of exactly the
matching particles is set to the given value, every other particle is left
unmodified, and processing continues with the remaining entries. -/
theorem assign_charges_entry (sys : System) (name : String) (q : ℚ)
    (rest : List (Yaml × Yaml)) :
    ((sys.particles.filter fun p => p.name = name).length = 0 →
      assign_charges sys ((.str name, .real q) :: rest) =
        (.error (.config ("No particle with the name " ++ name ++ " was found")),
          applyCharge sys name q))
    ∧ ((sys.particles.filter fun p => p.name = name).length ≠ 0 →
      assign_charges sys ((.str name, .real q) :: rest) =
        assign_charges (applyCharge sys name q) rest
      ∧ (applyCharge sys name q).particles.length = sys.particles.length
      ∧ (∀ (i : Nat) (h : i < sys.particles.length)
          (h2 : i < (applyCharge sys name q).particles.length),
          (applyCharge sys name q).particles.get ⟨i, h2⟩ =
            if (sys.particles.get ⟨i, h⟩).name = name
            then { sys.particles.get ⟨i, h⟩ with charge := q }
            else sys.particles.get ⟨i, h⟩)) := by
  constructor
  · intro h
    simp [assign_charges, Yaml.asStr, Yaml.asF64, h]
  · intro h
    refine ⟨?_, ?_, ?_⟩
    · simp [assign_charges, Yaml.asStr, Yaml.asF64, h]
    · simp [applyCharge]
    · intro i h1 h2
      simp [applyCharge, List.getElem_map]

theorem assign_charges_entry_witness :
    (List.filter (fun p => p.name = "O")
        [Particle.mk "O" 0, Particle.mk "H" 0, Particle.mk "O" 1]).length ≠ 0 ∧
      assign_charges ⟨[], [], [], [], Option.none,
          [Particle.mk "O" 0, Particle.mk "H" 0, Particle.mk "O" 1]⟩
          [(.str "O", .real 2)] =
        assign_charges
          (applyCharge ⟨[], [], [], [], Option.none,
            [Particle.mk "O" 0, Particle.mk "H" 0, Particle.mk "O" 1]⟩ "O" 2) [] ∧
      (applyCharge ⟨[], [], [], [], Option.none,
        [Particle.mk "O" 0, Particle.mk "H" 0, Particle.mk "O" 1]⟩ "O" 2).particles.length =
        (3 : Nat) :=
  ⟨by decide,
    ((assign_charges_entry ⟨[], [], [], [], Option.none,
      [Particle.mk "O" 0, Particle.mk "H" 0, Particle.mk "O" 1]⟩ "O" 2 []).2
      (by decide)).1,
    ((assign_charges_entry ⟨[], [], [], [], Option.none,
      [Particle.mk "O" 0, Particle.mk "H" 0, Particle.mk "O" 1]⟩ "O" 2 []).2
      (by decide)).2.1⟩

/-- The `type` key is not consulted by `Harmonic::from_yaml`, so rewriting it
leaves the result unchanged. -/
theorem harmonic_from_yaml_setKey (up : UnitParser) (node v : Yaml) :
    Harmonic.from_yaml up (node.setKey "type" v) = Harmonic.from_yaml up node := by
  unfold Harmonic.from_yaml
  rw [get_setKey_ne _ _ _ _ (by decide), get_setKey_ne _ _ _ _ (by decide)]

/-- The `type` key is not consulted by `LennardJones::from_yaml`. -/
theorem lennardJones_from_yaml_setKey (up : UnitParser) (node v : Yaml) :
    LennardJones.from_yaml up (node.setKey "type" v) = LennardJones.from_yaml up node := by
  unfold LennardJones.from_yaml
  rw [get_setKey_ne _ _ _ _ (by decide), get_setKey_ne _ _ _ _ (by decide)]

/-- Claim C6 counterexample: on the unrecognized type string `"FooBar"` the
configuration error message contains the lowercased string `"foobar"` but
does not contain the offending type string `"FooBar"` itself. -/
theorem read_pair_potential_msg_counterexample :
    read_pair_potential (fun _ => .error "")
        (Yaml.hash [(.str "type", .str "FooBar")]) =
      .error (.config "Unknown potential type 'foobar'")
    ∧ hasSub "FooBar".data "Unknown potential type 'foobar'".data = false := by
  exact ⟨rfl, by decide⟩

/-- Claim C6 (amended): pair-potential type dispatch is case-insensitive
(`read_pair_potential` gives the same result on the node with its `type`
string lowercased) and alias-aware; the recognized pair types are exactly
`harmonic`, `lennard-jones`/`lennardjones` and `null`/`nullpotential`, and
every other type string yields a configuration error whose message contains
the lowercased form of that string. -/
theorem read_pair_potential_dispatch (up : UnitParser) (node : Yaml) (t : String)
    (ht : (node.get "type").asStr = some t) :
    (read_pair_potential up node =
      read_pair_potential up (node.setKey "type" (.str (toLowercase t))))
    ∧ (toLowercase t = "harmonic" →
      read_pair_potential up node = (Harmonic.from_yaml up node).map .harmonic)
    ∧ (toLowercase t = "lennard-jones" ∨ toLowercase t = "lennardjones" →
      read_pair_potential up node = (LennardJones.from_yaml up node).map .lennardJones)
    ∧ (toLowercase t = "null" ∨ toLowercase t = "nullpotential" →
      read_pair_potential up node = .ok (.nullPotential ⟨⟩))
    ∧ (toLowercase t ≠ "harmonic" → toLowercase t ≠ "lennard-jones" →
      toLowercase t ≠ "lennardjones" → toLowercase t ≠ "null" →
      toLowercase t ≠ "nullpotential" →
      read_pair_potential up node =
        .error (.config ("Unknown potential type '" ++ toLowercase t ++ "'"))
      ∧ hasSub (toLowercase t).data
          ("Unknown potential type '" ++ toLowercase t ++ "'").data = true) := by
  have hget : node.get "type" = .str t := by
    cases hcase : node.get "type" <;> simp_all [Yaml.asStr]
  refine ⟨?_, ?_, ?_, ?_, ?_⟩
  · have hbad : node.get "type" ≠ .badValue := by
      rw [hget]
      exact fun h => Yaml.noConfusion h
    have ht' : ((node.setKey "type" (.str (toLowercase t))).get "type").asStr =
        some (toLowercase t) := by
      rw [get_setKey_self _ _ _ hbad]
      rfl
    simp only [read_pair_potential, ht, ht', toLowercase_idem,
      harmonic_from_yaml_setKey, lennardJones_from_yaml_setKey, NullPotential.from_yaml]
  · intro h
    simp [read_pair_potential, ht, h]
  · intro h
    rcases h with h | h <;> simp +decide [read_pair_potential, ht, h]
  · intro h
    rcases h with h | h <;>
      simp +decide [read_pair_potential, ht, h, NullPotential.from_yaml, Except.map]
  · intro h1 h2 h3 h4 h5
    constructor
    · simp [read_pair_potential, ht, h1, h2, h3, h4, h5]
    · have hd : ("Unknown potential type '" ++ toLowercase t ++ "'").data
          = "Unknown potential type '".data ++ ((toLowercase t).data ++ "'".data) := by
        simp [String.data_append]
      rw [hd]
      exact hasSub_append _ _ _

theorem read_pair_potential_dispatch_witness :
    toLowercase "LennardJones" = "lennardjones" ∧
      read_pair_potential (fun _ => .ok 1)
          (Yaml.hash [(.str "type", .str "LennardJones"), (.str "sigma", .str "3.4 A"),
            (.str "epsilon", .str "0.45 kJ/mol")]) =
        (LennardJones.from_yaml (fun _ => .ok 1)
          (Yaml.hash [(.str "type", .str "LennardJones"), (.str "sigma", .str "3.4 A"),
            (.str "epsilon", .str "0.45 kJ/mol")])).map .lennardJones :=
  ⟨by decide,
    (read_pair_potential_dispatch (fun _ => .ok 1)
      (Yaml.hash [(.str "type", .str "LennardJones"), (.str "sigma", .str "3.4 A"),
        (.str "epsilon", .str "0.45 kJ/mol")]) "LennardJones" rfl).2.2.1
      (Or.inr (by decide))⟩

/-! Lemmas about the charge-assignment loop, for the atomicity claim -/

theorem applyCharge_coulomb (sys : System) (nm : String) (qv : ℚ) :
    (applyCharge sys nm qv).coulomb = sys.coulomb := rfl

theorem applyCharge_length (sys : System) (nm : String) (qv : ℚ) :
    (applyCharge sys nm qv).particles.length = sys.particles.length := by
  simp [applyCharge]

theorem applyCharge_getq (sys : System) (nm : String) (qv : ℚ) (i : Nat) :
    (applyCharge sys nm qv).particles[i]? =
      (sys.particles[i]?).map fun p =>
        if p.name = nm then { p with charge := qv } else p := by
  simp [applyCharge, List.getElem?_map]

theorem assign_charges_coulomb (entries : List (Yaml × Yaml)) :
    ∀ sys : System, (assign_charges sys entries).2.coulomb = sys.coulomb := by
  induction entries with
  | nil => intro sys; rfl
  | cons en rest ih =>
    intro sys
    obtain ⟨nameY, chargeY⟩ := en
    cases hs : nameY.asStr with
    | none => simp [assign_charges, hs]
    | some nm =>
      cases hf : chargeY.asF64 with
      | none => simp [assign_charges, hs, hf]
      | some qv =>
        by_cases hz : (sys.particles.filter fun p => p.name = nm).length = 0
        · simp [assign_charges, hs, hf, hz, applyCharge]
        · simp [assign_charges, hs, hf, hz, ih, applyCharge]

theorem assign_charges_length (entries : List (Yaml × Yaml)) :
    ∀ sys : System, (assign_charges sys entries).2.particles.length =
      sys.particles.length := by
  induction entries with
  | nil => intro sys; rfl
  | cons en rest ih =>
    intro sys
    obtain ⟨nameY, chargeY⟩ := en
    cases hs : nameY.asStr with
    | none => simp [assign_charges, hs]
    | some nm =>
      cases hf : chargeY.asF64 with
      | none => simp [assign_charges, hs, hf]
      | some qv =>
        by_cases hz : (sys.particles.filter fun p => p.name = nm).length = 0
        · simp [assign_charges, hs, hf, hz, applyCharge]
        · simp [assign_charges, hs, hf, hz, ih, applyCharge]

/-- Particles whose type name is named by no entry of the charges mapping are
left untouched by `assign_charges`, whatever its outcome. -/
theorem assign_charges_untouched (entries : List (Yaml × Yaml)) :
    ∀ (sys : System) (i : Nat) (p : Particle), sys.particles[i]? = some p →
      (∀ en ∈ entries, en.1.asStr ≠ some p.name) →
      (assign_charges sys entries).2.particles[i]? = some p := by
  induction entries with
  | nil => intro sys i p hp _; exact hp
  | cons en rest ih =>
    intro sys i p hp hname
    obtain ⟨nameY, chargeY⟩ := en
    have hhead : nameY.asStr ≠ some p.name :=
      hname (nameY, chargeY) (List.mem_cons_self _ _)
    cases hs : nameY.asStr with
    | none =>
      have hstep : (assign_charges sys ((nameY, chargeY) :: rest)).2 = sys := by
        simp [assign_charges, hs]
      rw [hstep]
      exact hp
    | some nm =>
      have hne : p.name ≠ nm := by
        intro hcontra
        rw [hs, hcontra] at hhead
        exact hhead rfl
      cases hf : chargeY.asF64 with
      | none =>
        have hstep : (assign_charges sys ((nameY, chargeY) :: rest)).2 = sys := by
          simp [assign_charges, hs, hf]
        rw [hstep]
        exact hp
      | some qv =>
        have happ : (applyCharge sys nm qv).particles[i]? = some p := by
          rw [applyCharge_getq, hp]
          simp [hne]
        by_cases hz : (sys.particles.filter fun pp => pp.name = nm).length = 0
        · have hstep : (assign_charges sys ((nameY, chargeY) :: rest)).2 =
              applyCharge sys nm qv := by
            simp [assign_charges, hs, hf, hz]
          rw [hstep]
          exact happ
        · have hstep : assign_charges sys ((nameY, chargeY) :: rest) =
              assign_charges (applyCharge sys nm qv) rest := by
            simp [assign_charges, hs, hf, hz]
          rw [hstep]
          exact ih (applyCharge sys nm qv) i p happ
            fun en hmem => hname en (List.mem_cons_of_mem _ hmem)

/-- Claim C9: the coulomb pass is not atomic on error.  When the solver (and the
absent restriction) parse successfully but the `charges` mapping fails on a
later entry, the error propagates while the coulombic potential has already
been registered through `set_coulomb_interaction`, and the charge
assignments performed for earlier entries of the mapping remain in place. -/
theorem read_coulomb_not_atomic (up : UnitParser) (sys : System) (config : Yaml)
    (pot : CoulombPotential) (name : String) (q : ℚ) (rest : List (Yaml × Yaml))
    (e : Err) (sysF : System)
    (hpot : read_coulomb_potential up config = .ok pot)
    (hres : (config.get "restriction").asHash = Option.none)
    (hch : (config.get "charges").asHash = some ((.str name, .real q) :: rest))
    (hmatch : (sys.particles.filter fun p => p.name = name).length ≠ 0)
    (hfail : assign_charges (applyCharge (sys.set_coulomb_interaction pot) name q) rest
      = (.error e, sysF))
    (hdisj : ∀ en ∈ rest, en.1.asStr ≠ some name) :
    read_coulomb up sys config = (.error e, sysF)
    ∧ sysF.coulomb = some pot
    ∧ sysF.particles.length = sys.particles.length
    ∧ (∀ (i : Nat) (p : Particle), sys.particles[i]? = some p → p.name = name →
        sysF.particles[i]? = some { p with charge := q }) := by
  have hread : read_coulomb up sys config =
      assign_charges (applyCharge (sys.set_coulomb_interaction pot) name q) rest := by
    simp [read_coulomb, hpot, hres, hch, assign_charges, Yaml.asStr, Yaml.asF64,
      System.set_coulomb_interaction, hmatch]
  have hsysF : sysF =
      (assign_charges (applyCharge (sys.set_coulomb_interaction pot) name q) rest).2 := by
    rw [hfail]
  refine ⟨hread.trans hfail, ?_, ?_, ?_⟩
  · rw [hsysF, assign_charges_coulomb]
    rfl
  · rw [hsysF, assign_charges_length, applyCharge_length]
    rfl
  · intro i p hp hnm
    have hp' : (sys.set_coulomb_interaction pot).particles[i]? = some p := hp
    have happ : (applyCharge (sys.set_coulomb_interaction pot) name q).particles[i]? =
        some { p with charge := q } := by
      rw [applyCharge_getq, hp']
      simp [hnm]
    have hrest : ∀ en ∈ rest,
        en.1.asStr ≠ some (Particle.mk p.name q).name := by
      intro en hmem hcontra
      exact hdisj en hmem (by rw [hcontra]; simp [hnm])
    rw [hsysF]
    exact assign_charges_untouched rest
      (applyCharge (sys.set_coulomb_interaction pot) name q) i _ happ hrest

theorem read_coulomb_not_atomic_witness :
    read_coulomb (fun _ => .ok 1) ⟨[], [], [], [], Option.none, [Particle.mk "O" 0]⟩
        (Yaml.hash [(.str "type", .str "wolf"), (.str "cutoff", .str "10 A"),
          (.str "charges", .hash [(.str "O", .real 2), (.str "Na", .real 1)])]) =
      (.error (.config "No particle with the name Na was found"),
        ⟨[], [], [], [], some ⟨.wolf ⟨1⟩, Option.none⟩, [Particle.mk "O" 2]⟩)
    ∧ (⟨[], [], [], [], some ⟨.wolf ⟨1⟩, Option.none⟩,
        [Particle.mk "O" 2]⟩ : System).coulomb = some ⟨.wolf ⟨1⟩, Option.none⟩
    ∧ (⟨[], [], [], [], some ⟨.wolf ⟨1⟩, Option.none⟩,
        [Particle.mk "O" 2]⟩ : System).particles.length =
      (⟨[], [], [], [], Option.none, [Particle.mk "O" 0]⟩ : System).particles.length := by
  have T := read_coulomb_not_atomic (fun _ => .ok 1)
    ⟨[], [], [], [], Option.none, [Particle.mk "O" 0]⟩
    (Yaml.hash [(.str "type", .str "wolf"), (.str "cutoff", .str "10 A"),
      (.str "charges", .hash [(.str "O", .real 2), (.str "Na", .real 1)])])
    ⟨.wolf ⟨1⟩, Option.none⟩ "O" 2 [(.str "Na", .real 1)]
    (.config "No particle with the name Na was found")
    ⟨[], [], [], [], some ⟨.wolf ⟨1⟩, Option.none⟩, [Particle.mk "O" 2]⟩
    rfl rfl rfl (by decide) rfl (by decide)
  exact ⟨T.1, T.2.1, T.2.2.1⟩

end Lumol
